import Mathlib

/-!
Verification of the torrent-play Stream Orchestrator (services/hls_service.go)
against its natural-language specification.

The Go source is shallowly embedded: the registry (`map[string]*StreamInfo`)
becomes an association list, each Go function that touches it becomes a pure
Lean function from the old registry to the new one, and the environment
(torrent client results, filesystem results, the ffmpeg process, the clock)
is passed in explicitly as data.
-/

/-! ## Models of the Go standard-library string functions used by the source -/

/-- Model of Go `strings.HasPrefix` on character lists (second argument is
the candidate prefix). -/
def hasPrefixCL : List Char → List Char → Bool
  | _, [] => true
  | [], _ :: _ => false
  | c :: cs, p :: ps => c = p && hasPrefixCL cs ps

/-- Model of Go `strings.Contains` on character lists. -/
def containsCL (s pat : List Char) : Bool :=
  hasPrefixCL s pat ||
    match s with
    | [] => false
    | _ :: cs => containsCL cs pat

/-- Model of Go `strings.Contains`. -/
def goContains (s sub : String) : Bool :=
  containsCL s.toList sub.toList

/-- Model of Go `strings.TrimPrefix(s, "/")`: removes one leading slash if
present. -/
def trimLeadingSlash (s : String) : String :=
  match s.toList with
  | '/' :: rest => ⟨rest⟩
  | _ => s

/-- Splits a character list at the first occurrence of `sep`, returning the
part before and the part after, or `none` when `sep` does not occur. -/
def splitFirst (sep : Char) : List Char → Option (List Char × List Char)
  | [] => none
  | c :: cs =>
    if c = sep then some ([], cs)
    else
      match splitFirst sep cs with
      | none => none
      | some (pre, post) => some (c :: pre, post)

/-- Model of Go `strings.SplitN(s, sep, n)` for a single-character separator:
at most `n` substrings, the last one holding the unsplit remainder. -/
def splitNCL (sep : Char) : Nat → List Char → List (List Char)
  | 0, _ => []
  | 1, cs => [cs]
  | n + 2, cs =>
    match splitFirst sep cs with
    | none => [cs]
    | some (pre, post) => pre :: splitNCL sep (n + 1) post

/-- Model of Go `strings.SplitN` with separator `"/"`. -/
def goSplitNSlash (s : String) (n : Nat) : List String :=
  (splitNCL '/' n s.toList).map List.asString

/-- Model of Go `strings.ToLower` (ASCII case folding, which is all the
source's keyword scan needs). -/
def goToLower (s : String) : String :=
  ⟨s.toList.map Char.toLower⟩

/-- Model of Go `path/filepath.Join` for two elements, adequate for the
already-clean inputs the source joins: empty elements are ignored,
non-empty elements are joined with a single slash. -/
def filepathJoin (dir name : String) : String :=
  if dir = "" then name
  else if name = "" then dir
  else dir ++ "/" ++ name

/-! ## Data model: stream states, stream records, the registry -/

/-- The `StreamState` enumeration of hls_service.go. -/
inductive StreamState where
  | initializing
  | gettingInfo
  | downloading
  | transcoding
  | ready
  | error
  deriving DecidableEq, Repr

/-- The `StreamInfo` record of hls_service.go.  `Torrent` is an opaque handle
and is not modelled; the selected `File` is modelled by its index in the
torrent's file list; a Go `nil` error is `none`. -/
structure StreamInfo where
  id : String
  magnetURI : String
  state : StreamState
  hlsDir : String
  errMsg : Option String
  fileIdx : Option Nat
  deriving DecidableEq, Repr

/-- The registry `streams map[string]*StreamInfo`, embedded as an association
list with Go-map semantics (at most one binding per key). -/
abbrev Registry := List (String × StreamInfo)

/-- Go map lookup `s.streams[streamID]`. -/
def regFind (r : Registry) (sid : String) : Option StreamInfo :=
  match r with
  | [] => none
  | (k, v) :: rest => if k = sid then some v else regFind rest sid

/-- Go map assignment `s.streams[streamID] = info`: overwrites the existing
binding or appends a new one. -/
def regInsert (r : Registry) (sid : String) (info : StreamInfo) : Registry :=
  match r with
  | [] => [(sid, info)]
  | (k, v) :: rest =>
    if k = sid then (k, info) :: rest else (k, v) :: regInsert rest sid info

/-- `HlsService.updateStreamState` (hls_service.go:102-114): if the id is
present, overwrite its state and error fields; otherwise do nothing.  The Go
function returns no value, so the embedding returns only the new registry. -/
def updateStreamState (r : Registry) (sid : String) (state : StreamState)
    (err : Option String) : Registry :=
  match regFind r sid with
  | some info => regInsert r sid { info with state := state, errMsg := err }
  | none => r

/-- `HlsService.GetStreamInfo` (hls_service.go:95-100). -/
def getStreamInfo (r : Registry) (sid : String) : Option StreamInfo × Bool :=
  match regFind r sid with
  | some info => (some info, true)
  | none => (none, false)

/-! ## The Segment File Server: `HlsService.ServeHTTP` -/

/-- The possible outcomes of one `ServeHTTP` call, as the source produces
them: `notFound` is `http.NotFound` (status 404), `badRequest` is
`http.Error(w, "Invalid path", http.StatusBadRequest)` (status 400),
`optionsOk` is the empty `200` answer to a CORS preflight, and
`serveFile p` hands the path `p` to `http.ServeFile`. -/
inductive HlsResponse where
  | notFound
  | badRequest
  | optionsOk
  | serveFile (path : String)
  deriving DecidableEq, Repr

/-- Which statuses are HTTP client errors (4xx). -/
def HlsResponse.isClientError : HlsResponse → Bool
  | .notFound => true
  | .badRequest => true
  | .optionsOk => false
  | .serveFile _ => false

/-- `HlsService.ServeHTTP` (hls_service.go:182-222), as a function of the
registry, the request method and the request URL path. -/
def serveHTTP (streams : Registry) (method urlPath : String) : HlsResponse :=
  let parts := goSplitNSlash (trimLeadingSlash urlPath) 3
  if parts.length = 3 then
    let streamID := parts.getD 1 ""
    let fileName := parts.getD 2 ""
    match regFind streams streamID with
    | none => .notFound
    | some stream =>
      if goContains fileName ".." then .badRequest
      else
        let filePath := filepathJoin stream.hlsDir fileName
        if method = "OPTIONS" then .optionsOk
        else .serveFile filePath
  else .notFound

/-! ## The transcoder invocation: `HlsService.transcodeToHLS`

The external ffmpeg process and the surrounding OS are modelled by a
`TranscodeEnv` describing what each fallible step would do: whether
`cmd.StderrPipe()` and `cmd.Start()` succeed, what `cmd.Wait()` returns,
whether the stream's context is cancelled when the wait-error is examined,
and the diagnostic lines the stderr-scanning goroutine would read. -/

structure TranscodeEnv where
  pipeOk : Bool
  startOk : Bool
  /-- `some msg` when `cmd.Wait()` returns an error (non-zero exit or kill). -/
  waitErr : Option String
  /-- whether `ctx.Err() != nil` at the moment the wait error is examined. -/
  ctxCancelled : Bool
  /-- the lines of ffmpeg diagnostic output read by the logging goroutine. -/
  stderrLines : List String
  deriving DecidableEq, Repr

/-- The possible return values of `transcodeToHLS`: `ok` is a `nil` error,
the others are the four distinct wrapped errors the source can return. -/
inductive TranscodeResult where
  | ok
  | pipeError (msg : String)
  | startError (msg : String)
  | cancelError (msg : String)
  | waitError (msg : String)
  deriving DecidableEq, Repr

def TranscodeResult.isErr : TranscodeResult → Bool
  | .ok => false
  | _ => true

/-- The keyword scan the stderr-logging goroutine applies to each diagnostic
line (hls_service.go:261): it only decides whether an extra log line is
emitted — the commented-out `cmd.Process.Kill()` is dead code. -/
def detectsFailureKeyword (line : String) : Bool :=
  goContains (goToLower line) "error" || goContains (goToLower line) "failed"

/-- `HlsService.transcodeToHLS` (hls_service.go:224-284).  The stderr
scanning goroutine only logs, so `stderrLines` does not influence the
result; `cmd.Wait()`'s error is reattributed to cancellation when
`ctx.Err() != nil`. -/
def transcodeToHLS (env : TranscodeEnv) : TranscodeResult :=
  if !env.pipeOk then .pipeError "error creating stderr pipe for ffmpeg"
  else if !env.startOk then .startError "error starting ffmpeg"
  else
    match env.waitErr with
    | some e =>
      if env.ctxCancelled then
        .cancelError ("ffmpeg stopped due to context cancellation: " ++ e)
      else .waitError ("ffmpeg command failed: " ++ e)
    | none => .ok

/-- The error string a `TranscodeResult` carries (empty for `ok`). -/
def TranscodeResult.msg : TranscodeResult → String
  | .ok => ""
  | .pipeError m => m
  | .startError m => m
  | .cancelError m => m
  | .waitError m => m

/-! ## Payload selection: the largest-file loop of `manageStream` -/

/-- The loop of hls_service.go:124-129 over the torrent's files, carrying
the current `largestFile` (as index × length) and the index of the next
file; a file replaces the current best exactly when `largestFile == nil ||
file.Length() > largestFile.Length()`. -/
def selectLargestAux (best : Option (Nat × Int)) (i : Nat) :
    List Int → Option (Nat × Int)
  | [] => best
  | len :: rest =>
    match best with
    | none => selectLargestAux (some (i, len)) (i + 1) rest
    | some (bi, blen) =>
      if len > blen then selectLargestAux (some (i, len)) (i + 1) rest
      else selectLargestAux (some (bi, blen)) (i + 1) rest

/-- The largest-file selection of `manageStream`, over the list of file
lengths, returning the chosen file's index and length (`none` iff the
torrent has no files). -/
def selectLargest (lens : List Int) : Option (Nat × Int) :=
  selectLargestAux none 0 lens

/-! ## The pipeline: `PrepareStream` and `manageStream`

The outside world a single stream's pipeline interacts with is collected in
`SystemEnv`: whether `client.AddMagnet` succeeds, whether `t.Info()` is
non-nil after `<-t.GotInfo()`, the lengths of `t.Files()`, whether
`os.MkdirTemp` succeeds and the directory it yields, and the transcoder
environment. -/

structure SystemEnv where
  /-- what `client.AddMagnet` returns: `none` for success. -/
  addMagnetErr : Option String
  infoAvailable : Bool
  fileLengths : List Int
  mkdirOk : Bool
  hlsDir : String
  tenv : TranscodeEnv
  deriving DecidableEq, Repr

/-- `s.streams[streamID].File = largestFile` (hls_service.go:137), a no-op
when the id is absent. -/
def setFile (r : Registry) (sid : String) (idx : Nat) : Registry :=
  match regFind r sid with
  | some info => regInsert r sid { info with fileIdx := some idx }
  | none => r

/-- `s.streams[streamID].HlsDir = hlsDir` (hls_service.go:154), a no-op
when the id is absent. -/
def setHlsDir (r : Registry) (sid : String) (dir : String) : Registry :=
  match regFind r sid with
  | some info => regInsert r sid { info with hlsDir := dir }
  | none => r

/-- `HlsService.manageStream` (hls_service.go:116-179) as a registry
transformer.  The second component records whether `os.RemoveAll(hlsDir)`
was invoked (hls_service.go:163, on transcoding failure only). -/
def manageStreamRun (env : SystemEnv) (r : Registry) (sid : String) :
    Registry × Bool :=
  if !env.infoAvailable then
    (updateStreamState r sid .error (some "torrent info not available"), false)
  else
    match selectLargest env.fileLengths with
    | none =>
      (updateStreamState r sid .error (some "no files found in torrent"), false)
    | some (idx, _) =>
      let r1 := setFile r sid idx
      let r2 := updateStreamState r1 sid .downloading none
      if !env.mkdirOk then
        (updateStreamState r2 sid .error (some "failed to create HLS temp dir"),
          false)
      else
        let r3 := setHlsDir r2 sid env.hlsDir
        let r4 := updateStreamState r3 sid .transcoding none
        match transcodeToHLS env.tenv with
        | .ok => (updateStreamState r4 sid .ready none, false)
        | res =>
          (updateStreamState r4 sid .error
            (some ("transcoding failed: " ++ res.msg)), true)

/-- The decimal digits of `n`, least significant first, by the usual
repeated division; the first argument is structural-recursion fuel (any
fuel `≥ n` gives the exact digits). -/
def natDecDigitsAux : Nat → Nat → List Nat
  | _, 0 => []
  | 0, _ + 1 => []
  | fuel + 1, n + 1 => ((n + 1) % 10) :: natDecDigitsAux fuel ((n + 1) / 10)

/-- The character for one decimal digit. -/
def decDigitChar (d : Nat) : Char := Char.ofNat (48 + d)

/-- Model of Go `fmt.Sprintf("%d", n)` for a non-negative `int64`: the
standard decimal rendering. -/
def sprintfNat (n : Nat) : String :=
  if n = 0 then "0"
  else ((natDecDigitsAux n n).reverse.map decDigitChar).asString

/-- The stream id `fmt.Sprintf("%d", time.Now().UnixNano())`
(hls_service.go:72); the clock reading is passed in as the non-negative
nanosecond count (`UnixNano` is positive for all realizable times). -/
def makeStreamID (clk : Nat) : String := sprintfNat clk

/-- The record `PrepareStream` builds and inserts (hls_service.go:73-78). -/
def initialInfo (clk : Nat) (uri : String) : StreamInfo :=
  { id := makeStreamID clk, magnetURI := uri, state := .initializing,
    hlsDir := "", errMsg := none, fileIdx := none }

/-- The locked first half of `PrepareStream` (hls_service.go:70-79): generate
the id from the clock and insert the fresh `Initializing` record. -/
def prepareInsert (r : Registry) (clk : Nat) (uri : String) :
    Registry × String :=
  (regInsert r (makeStreamID clk) (initialInfo clk uri), makeStreamID clk)

/-- `HlsService.PrepareStream` (hls_service.go:69-93) up to the point where
the background goroutine is spawned.  `addMagnetErr` is what
`client.AddMagnet` returns (`none` for success).  Returns the new registry,
the record the caller receives (the Go caller gets a pointer into the
registry, so the record is read back from the registry after the state
update), and the returned error. -/
def prepareStream (r : Registry) (clk : Nat) (uri : String)
    (addMagnetErr : Option String) : Registry × StreamInfo × Option String :=
  let (r1, sid) := prepareInsert r clk uri
  match addMagnetErr with
  | none =>
    let r2 := updateStreamState r1 sid .gettingInfo none
    (r2, (regFind r2 sid).getD (initialInfo clk uri), none)
  | some e =>
    let msg := "error adding magnet: " ++ e
    let r2 := updateStreamState r1 sid .error (some msg)
    (r2, (regFind r2 sid).getD (initialInfo clk uri), some msg)

/-! ## Lifetime traces

For the state-machine claims we also read the pipeline off as the ordered
list of `updateStreamState` calls it makes for one stream id.  This is the
same control flow as `prepareStream`/`manageStreamRun`, recorded as data:
each element is the `(state, error)` pair passed to `updateStreamState`. -/

/-- The `updateStreamState` calls `manageStream` makes, in order
(hls_service.go:116-179). -/
def manageUpdates (env : SystemEnv) : List (StreamState × Option String) :=
  if !env.infoAvailable then
    [(.error, some "torrent info not available")]
  else
    match selectLargest env.fileLengths with
    | none => [(.error, some "no files found in torrent")]
    | some _ =>
      (.downloading, none) ::
        if !env.mkdirOk then
          [(.error, some "failed to create HLS temp dir")]
        else
          (.transcoding, none) ::
            match transcodeToHLS env.tenv with
            | .ok => [(.ready, none)]
            | res => [(.error, some ("transcoding failed: " ++ res.msg))]

/-- The `updateStreamState` calls made for one stream over its whole
lifetime: `PrepareStream` makes the first (Error on `AddMagnet` failure,
else GettingInfo), and only in the success case spawns `manageStream`
(hls_service.go:82-92). -/
def systemUpdates (env : SystemEnv) : List (StreamState × Option String) :=
  match env.addMagnetErr with
  | some e => [(.error, some ("error adding magnet: " ++ e))]
  | none => (.gettingInfo, none) :: manageUpdates env

/-- The sequence of values the record's `State` field takes over the
stream's lifetime: `Initializing` at creation, then the updates. -/
def stateTrace (env : SystemEnv) : List StreamState :=
  .initializing :: (systemUpdates env).map Prod.fst

/-- Applying a list of recorded `updateStreamState` calls to a registry. -/
def runUpdates (r : Registry) (sid : String)
    (upds : List (StreamState × Option String)) : Registry :=
  upds.foldl (fun acc u => updateStreamState acc sid u.1 u.2) r

/-- Position of each state on the pipeline's forward path
`Initializing → GettingInfo → Downloading → Transcoding → Ready`, with
`Error` ranked after every non-terminal state. -/
def StreamState.rank : StreamState → Nat
  | .initializing => 0
  | .gettingInfo => 1
  | .downloading => 2
  | .transcoding => 3
  | .ready => 4
  | .error => 5

/-- The full forward path of the state machine. -/
def fullPath : List StreamState :=
  [.initializing, .gettingInfo, .downloading, .transcoding, .ready]

/-! ## Parsing lemmas for `ServeHTTP` -/

lemma splitFirst_append_sep (l r : List Char) (h : '/' ∉ l) :
    splitFirst '/' (l ++ '/' :: r) = some (l, r) := by
  induction l with
  | nil => simp [splitFirst]
  | cons c cs ih =>
    have hc : c ≠ '/' := fun hc => h (hc ▸ List.mem_cons_self c cs)
    have hcs : '/' ∉ cs := fun hm => h (List.mem_cons_of_mem c hm)
    simp [splitFirst, hc, ih hcs]

lemma serveHTTP_parts (sid fn : String) (h : '/' ∉ sid.toList) :
    goSplitNSlash (trimLeadingSlash ("/hls/" ++ sid ++ "/" ++ fn)) 3 =
      ["hls", sid, fn] := by
  have hdata : ("/hls/" ++ sid ++ "/" ++ fn).data =
      '/' :: 'h' :: 'l' :: 's' :: '/' :: (sid.data ++ '/' :: fn.data) := by
    simp [String.data_append]
  have htrim : trimLeadingSlash ("/hls/" ++ sid ++ "/" ++ fn) =
      ⟨'h' :: 'l' :: 's' :: '/' :: (sid.data ++ '/' :: fn.data)⟩ := by
    unfold trimLeadingSlash
    rw [String.toList, hdata]
    rfl
  rw [htrim]
  clear htrim hdata
  unfold goSplitNSlash
  rw [String.toList]
  show (splitNCL '/' 3
    ('h' :: 'l' :: 's' :: '/' :: (sid.data ++ '/' :: fn.data))).map
      List.asString = _
  have h1 : splitFirst '/'
      ('h' :: 'l' :: 's' :: '/' :: (sid.data ++ '/' :: fn.data)) =
      some (['h', 'l', 's'], sid.data ++ '/' :: fn.data) := by
    simp [splitFirst]
  have h2 : splitFirst '/' (sid.data ++ '/' :: fn.data) =
      some (sid.data, fn.data) := splitFirst_append_sep _ _ h
  simp only [splitNCL, h1, h2]
  simp [List.asString]

/-- How `ServeHTTP` treats a well-formed `/hls/<sid>/<fn>` request (the
stream id, an HTTP path segment, contains no slash): everything after the
URL parsing step, as one case split. -/
lemma serveHTTP_eq (streams : Registry) (method sid fn : String)
    (h : '/' ∉ sid.toList) :
    serveHTTP streams method ("/hls/" ++ sid ++ "/" ++ fn) =
      (match regFind streams sid with
       | none => .notFound
       | some stream =>
         if goContains fn ".." then .badRequest
         else if method = "OPTIONS" then .optionsOk
         else .serveFile (filepathJoin stream.hlsDir fn)) := by
  unfold serveHTTP
  simp only [serveHTTP_parts sid fn h]
  rfl

/-! ## C1: path-traversal requests are rejected before path resolution -/

/-- C1: for every request `GET /hls/<streamID>/<fileName>` whose file name
contains `".."`, `ServeHTTP` answers with a client-error status (404 when the
stream id is unknown, 400 otherwise) and never reaches `http.ServeFile`, i.e.
never resolves a filesystem path — regardless of whether `streamID` is
registered. -/
theorem C1_traversal_rejected (streams : Registry) (sid fn : String)
    (hsid : '/' ∉ sid.toList) (hfn : goContains fn ".." = true) :
    (serveHTTP streams "GET" ("/hls/" ++ sid ++ "/" ++ fn)).isClientError
      = true ∧
    ∀ p, serveHTTP streams "GET" ("/hls/" ++ sid ++ "/" ++ fn)
      ≠ .serveFile p := by
  rw [serveHTTP_eq streams "GET" sid fn hsid]
  cases regFind streams sid with
  | none => exact ⟨rfl, fun p h => by cases h⟩
  | some stream =>
    simp only [hfn, if_true]
    exact ⟨rfl, fun p h => by cases h⟩

/-- Witness for C1: the spec's own example `../../etc/passwd`, on an
unregistered stream id. -/
theorem C1_traversal_rejected_witness :
    ('/' ∉ "123".toList) ∧
    goContains "../../etc/passwd" ".." = true ∧
    ((serveHTTP [] "GET" ("/hls/" ++ "123" ++ "/" ++ "../../etc/passwd")).isClientError = true ∧
      ∀ p, serveHTTP [] "GET" ("/hls/" ++ "123" ++ "/" ++ "../../etc/passwd")
        ≠ .serveFile p) :=
  ⟨by decide, by decide,
    C1_traversal_rejected [] "123" "../../etc/passwd" (by decide) (by decide)⟩

/-! ## C2: resolution of segment-serving requests -/

/-- A registry as it stands mid-pipeline: stream `"1"` is registered and
`Downloading`, so its working directory has not yet been set (`HlsDir` still
holds Go's zero value `""`). -/
def c2Registry : Registry :=
  [("1", { id := "1", magnetURI := "magnet:?xt=urn:btih:aa", state := .downloading,
           hlsDir := "", errMsg := none, fileIdx := some 0 })]

/-- Counterexample to C2: stream `"1"` is registered but its working
directory is unset; the claim says such a request is answered not-found with
no file bytes served, but `ServeHTTP` joins the empty directory with the
file name and hands the bare relative path `"playlist.m3u8"` (resolved
against the server process's current directory) to `http.ServeFile`. -/
theorem C2_counterexample :
    (regFind c2Registry "1").map StreamInfo.hlsDir = some "" ∧
    serveHTTP c2Registry "GET" "/hls/1/playlist.m3u8"
      = .serveFile "playlist.m3u8" := by
  constructor
  · rfl
  · rfl

/-- C2 as amended: unregistered stream ids are answered not-found with no
file served; for a registered id the file is served from the join of the
record's working directory with the file name, whether or not that
directory has been set (an unset directory is not checked for). -/
theorem C2_serve_resolution (streams : Registry) (sid fn : String)
    (hsid : '/' ∉ sid.toList) (hfn : goContains fn ".." = false) :
    (regFind streams sid = none →
      serveHTTP streams "GET" ("/hls/" ++ sid ++ "/" ++ fn) = .notFound) ∧
    (∀ info, regFind streams sid = some info →
      serveHTTP streams "GET" ("/hls/" ++ sid ++ "/" ++ fn)
        = .serveFile (filepathJoin info.hlsDir fn)) := by
  rw [serveHTTP_eq streams "GET" sid fn hsid]
  constructor
  · intro hnone
    rw [hnone]
  · intro info hsome
    rw [hsome]
    simp [hfn]

/-- Witness for C2's amended statement: both branches exercised on the
mid-pipeline registry. -/
theorem C2_serve_resolution_witness :
    serveHTTP c2Registry "GET" ("/hls/" ++ "1" ++ "/" ++ "playlist.m3u8")
      = .serveFile (filepathJoin "" "playlist.m3u8") ∧
    serveHTTP c2Registry "GET" ("/hls/" ++ "9" ++ "/" ++ "playlist.m3u8")
      = .notFound := by
  constructor
  · exact (C2_serve_resolution c2Registry "1" "playlist.m3u8"
      (by decide) (by decide)).2
      { id := "1", magnetURI := "magnet:?xt=urn:btih:aa", state := .downloading,
        hlsDir := "", errMsg := none, fileIdx := some 0 } rfl
  · exact (C2_serve_resolution c2Registry "9" "playlist.m3u8"
      (by decide) (by decide)).1 rfl

/-! ## Registry lemmas -/

lemma regFind_regInsert_self (r : Registry) (k : String) (v : StreamInfo) :
    regFind (regInsert r k v) k = some v := by
  induction r with
  | nil => simp [regInsert, regFind]
  | cons kv rest ih =>
    obtain ⟨k0, v0⟩ := kv
    by_cases h : k0 = k
    · simp [regInsert, regFind, h]
    · simp [regInsert, regFind, h, ih]

lemma regFind_regInsert_ne (r : Registry) (k k' : String) (v : StreamInfo)
    (h : k ≠ k') : regFind (regInsert r k v) k' = regFind r k' := by
  induction r with
  | nil => simp [regInsert, regFind, h]
  | cons kv rest ih =>
    obtain ⟨k0, v0⟩ := kv
    by_cases h0 : k0 = k
    · subst h0
      simp [regInsert, regFind, h]
    · by_cases h1 : k0 = k'
      · simp [regInsert, regFind, h0, h1, Ne.symm h]
      · simp [regInsert, regFind, h0, h1, ih]

lemma regFind_updateStreamState_self (r : Registry) (sid : String)
    (st : StreamState) (e : Option String) :
    regFind (updateStreamState r sid st e) sid
      = (regFind r sid).map (fun i => { i with state := st, errMsg := e }) := by
  unfold updateStreamState
  cases h : regFind r sid with
  | none => simp [h]
  | some info => simp [h, regFind_regInsert_self]

lemma regFind_updateStreamState_ne (r : Registry) (sid sid' : String)
    (st : StreamState) (e : Option String) (h : sid ≠ sid') :
    regFind (updateStreamState r sid st e) sid' = regFind r sid' := by
  unfold updateStreamState
  cases hh : regFind r sid with
  | none => simp [hh]
  | some info => simp [hh, regFind_regInsert_ne _ _ _ _ h]

/-! ## Injectivity of the stream-id rendering -/

/-- Little-endian decimal decoding, the inverse of `natDecDigitsAux`. -/
def decodeDigits : List Nat → Nat
  | [] => 0
  | d :: ds => d + 10 * decodeDigits ds

lemma decode_natDecDigitsAux (fuel : Nat) :
    ∀ n, n ≤ fuel → decodeDigits (natDecDigitsAux fuel n) = n := by
  induction fuel with
  | zero =>
    intro n hn
    interval_cases n
    rfl
  | succ fuel ih =>
    intro n hn
    match n with
    | 0 => rfl
    | m + 1 =>
      have hdiv : (m + 1) / 10 ≤ fuel := by
        have := Nat.div_lt_self (Nat.succ_pos m) (by norm_num : 1 < 10)
        omega
      show decodeDigits (((m + 1) % 10) :: natDecDigitsAux fuel ((m + 1) / 10))
        = m + 1
      simp only [decodeDigits, ih _ hdiv]
      omega

lemma natDecDigitsAux_lt_ten (fuel : Nat) :
    ∀ n d, d ∈ natDecDigitsAux fuel n → d < 10 := by
  induction fuel with
  | zero =>
    intro n d hd
    match n with
    | 0 => cases hd
    | _ + 1 => cases hd
  | succ fuel ih =>
    intro n d hd
    match n with
    | 0 => cases hd
    | m + 1 =>
      rcases List.mem_cons.mp hd with h | h
      · subst h
        exact Nat.mod_lt _ (by norm_num)
      · exact ih _ _ h

lemma decDigitChar_roundtrip (d : Nat) (h : d < 10) :
    (decDigitChar d).toNat - 48 = d := by
  interval_cases d <;> decide

/-- Decimal decoding of a rendered string (most significant digit first). -/
def decodeDecimal (s : String) : Nat :=
  decodeDigits ((s.toList.map (fun c => c.toNat - 48)).reverse)

lemma decode_sprintfNat (n : Nat) : decodeDecimal (sprintfNat n) = n := by
  unfold sprintfNat
  by_cases h : n = 0
  · subst h
    decide
  · simp only [h, if_false, decodeDecimal]
    have hlist : (List.asString
        ((natDecDigitsAux n n).reverse.map decDigitChar)).toList
        = (natDecDigitsAux n n).reverse.map decDigitChar := rfl
    rw [hlist, List.map_map, ← List.map_reverse, List.reverse_reverse]
    have hcongr : (natDecDigitsAux n n).map
        ((fun c : Char => c.toNat - 48) ∘ decDigitChar)
        = (natDecDigitsAux n n).map id := by
      apply List.map_congr_left
      intro d hd
      exact decDigitChar_roundtrip d (natDecDigitsAux_lt_ten n n d hd)
    rw [hcongr, List.map_id]
    exact decode_natDecDigitsAux n n le_rfl

lemma sprintfNat_injective : Function.Injective sprintfNat :=
  Function.LeftInverse.injective decode_sprintfNat

/-! ## C7: stream creation and id freshness -/

/-- Counterexample to C7: two `PrepareStream` calls falling in the same
clock nanosecond — `time.Now().UnixNano()` reads 42 both times, the exact
"rapid successive calls" situation the claim covers — receive the *same* id,
and the second insertion overwrites the first record: after both calls the
registry holds a single record carrying the second magnet URI. -/
theorem C7_counterexample :
    (prepareStream [] 42 "magnet:?xt=a" none).2.1.id
      = (prepareStream (prepareStream [] 42 "magnet:?xt=a" none).1
          42 "magnet:?xt=b" none).2.1.id ∧
    (prepareStream (prepareStream [] 42 "magnet:?xt=a" none).1
        42 "magnet:?xt=b" none).1.length = 1 ∧
    (regFind (prepareStream (prepareStream [] 42 "magnet:?xt=a" none).1
        42 "magnet:?xt=b" none).1 (makeStreamID 42)).map StreamInfo.magnetURI
      = some "magnet:?xt=b" := by
  decide

/-- C7 as amended: the id is the decimal rendering of the creation-time
nanosecond clock, so two creations with distinct clock readings do receive
distinct ids, and a get performed immediately after the registry insertion
returns the new record in `Initializing` state; only calls landing in the
same nanosecond collide (and then the later overwrites the earlier). -/
theorem C7_create_get (r : Registry) (clk clk' : Nat) (uri : String)
    (hclk : clk ≠ clk') :
    makeStreamID clk ≠ makeStreamID clk' ∧
    getStreamInfo (prepareInsert r clk uri).1 (makeStreamID clk)
      = (some (initialInfo clk uri), true) ∧
    (initialInfo clk uri).state = .initializing := by
  refine ⟨fun h => hclk (sprintfNat_injective h), ?_, rfl⟩
  unfold getStreamInfo prepareInsert
  simp [regFind_regInsert_self]

/-- Witness for C7's amended statement at clock readings 1 and 2. -/
theorem C7_create_get_witness :
    makeStreamID 1 ≠ makeStreamID 2 ∧
    getStreamInfo (prepareInsert [] 1 "magnet:?xt=a").1 (makeStreamID 1)
      = (some (initialInfo 1 "magnet:?xt=a"), true) ∧
    (initialInfo 1 "magnet:?xt=a").state = .initializing :=
  C7_create_get [] 1 2 "magnet:?xt=a" (by decide)

/-! ## C9: transitions on unknown ids -/

/-- A registry with the single registered stream `"7"`. -/
def c9Registry : Registry :=
  [("7", { id := "7", magnetURI := "magnet:?xt=c", state := .gettingInfo,
           hlsDir := "", errMsg := none, fileIdx := none })]

/-- Counterexample to C9's reporting component: `updateStreamState` returns
no value in the source, so a transition on the unknown id `"8"` produces for
its caller exactly the same observable outcome (the same registry, and
nothing else) as a transition on the registered id `"7"` — the not-found
outcome is not reported to the caller. -/
theorem C9_counterexample :
    regFind c9Registry "8" = none ∧
    (regFind c9Registry "7").isSome = true ∧
    updateStreamState c9Registry "8" .downloading none
      = updateStreamState c9Registry "7" .gettingInfo none := by
  decide

/-- C9 as amended: a transition on an id not present in the registry leaves
the registry (hence every existing record) unchanged and cannot crash — it
is a silent no-op; the source function has no return value, so the
not-found outcome is not reported to the caller. -/
theorem C9_unknown_id_noop (r : Registry) (sid : String) (st : StreamState)
    (e : Option String) (h : regFind r sid = none) :
    updateStreamState r sid st e = r := by
  unfold updateStreamState
  rw [h]

/-- Witness for C9's amended statement. -/
theorem C9_unknown_id_noop_witness :
    updateStreamState c9Registry "8" .downloading none = c9Registry :=
  C9_unknown_id_noop c9Registry "8" .downloading none (by decide)

/-! ## C10: synchronous AddMagnet failure -/

/-- C10: when `client.AddMagnet` fails synchronously, `PrepareStream`
leaves the freshly inserted record registered, in `Error` state with the
wrapped failure recorded, and returns that record together with a non-nil
error; `GetStreamInfo` on the returned id then succeeds and observes the
`Error` state. -/
theorem C10_magnet_failure (r : Registry) (clk : Nat) (uri e : String) :
    (prepareStream r clk uri (some e)).2.2
        = some ("error adding magnet: " ++ e) ∧
    (prepareStream r clk uri (some e)).2.1.state = .error ∧
    (prepareStream r clk uri (some e)).2.1.errMsg
        = some ("error adding magnet: " ++ e) ∧
    (prepareStream r clk uri (some e)).2.1.id = makeStreamID clk ∧
    getStreamInfo (prepareStream r clk uri (some e)).1 (makeStreamID clk)
        = (some (prepareStream r clk uri (some e)).2.1, true) := by
  unfold prepareStream prepareInsert
  simp [updateStreamState, regFind_regInsert_self, getStreamInfo, initialInfo]

/-! ## C4: largest-file selection -/

/-- Invariant of the largest-file loop: starting from a current best
`(bi, bm)` taken at an index below `i`, the loop returns a defined best
that dominates `bm` and every remaining element, and is either the
incoming best (nothing beat it) or a strictly greater element of the
remainder that strictly beats everything before it. -/
lemma selectLargestAux_go (lens : List Int) :
    ∀ (i bi : Nat) (bm : Int), bi < i →
    ∃ p m, selectLargestAux (some (bi, bm)) i lens = some (p, m) ∧
      bm ≤ m ∧ (∀ x ∈ lens, x ≤ m) ∧
      ((p = bi ∧ m = bm) ∨
        (∃ k, lens.get? k = some m ∧ p = i + k ∧ bm < m ∧
          ∀ j x, j < k → lens.get? j = some x → x < m)) := by
  induction lens with
  | nil =>
    intro i bi bm _
    exact ⟨bi, bm, rfl, le_rfl, by simp, Or.inl ⟨rfl, rfl⟩⟩
  | cons len rest ih =>
    intro i bi bm hbi
    by_cases hlt : len > bm
    · obtain ⟨p, m, hres, hml, hall, hdisj⟩ := ih (i + 1) i len (Nat.lt_succ_self i)
      refine ⟨p, m, ?_, ?_, ?_, ?_⟩
      · simp only [selectLargestAux, hlt, if_true]
        exact hres
      · exact le_of_lt (lt_of_lt_of_le hlt hml)
      · intro x hx
        rcases List.mem_cons.mp hx with h | h
        · exact h ▸ hml
        · exact hall x h
      · rcases hdisj with ⟨hp, hm⟩ | ⟨k, hk, hp, hlm, hfst⟩
        · refine Or.inr ⟨0, ?_, by omega, hlt.trans_le (le_of_eq hm.symm) , ?_⟩
          · simp [hm]
          · intro j x hj
            omega
        · refine Or.inr ⟨k + 1, by simpa using hk, by omega, lt_trans hlt hlm, ?_⟩
          intro j x hj hx
          match j with
          | 0 =>
            simp only [List.get?] at hx
            cases hx
            exact hlm
          | j' + 1 =>
            exact hfst j' x (by omega) (by simpa using hx)
    · obtain ⟨p, m, hres, hml, hall, hdisj⟩ := ih (i + 1) bi bm (by omega)
      have hle : len ≤ bm := le_of_not_lt hlt
      refine ⟨p, m, ?_, hml, ?_, ?_⟩
      · simp only [selectLargestAux, hlt, if_false]
        exact hres
      · intro x hx
        rcases List.mem_cons.mp hx with h | h
        · exact h ▸ le_trans hle hml
        · exact hall x h
      · rcases hdisj with ⟨hp, hm⟩ | ⟨k, hk, hp, hlm, hfst⟩
        · exact Or.inl ⟨hp, hm⟩
        · refine Or.inr ⟨k + 1, by simpa using hk, by omega, hlm, ?_⟩
          intro j x hj hx
          match j with
          | 0 =>
            simp only [List.get?] at hx
            cases hx
            exact lt_of_le_of_lt hle hlm
          | j' + 1 =>
            exact hfst j' x (by omega) (by simpa using hx)

/-- The selection the `manageStream` loop makes on a non-empty file list:
the value is a maximum of the list, found at the returned index, and every
earlier index holds a strictly smaller value (ties go to the
first-encountered file, because only `>` replaces the current best). -/
lemma selectLargest_spec (lens : List Int) (hne : lens ≠ []) :
    ∃ j m, selectLargest lens = some (j, m) ∧ lens.get? j = some m ∧
      (∀ x ∈ lens, x ≤ m) ∧ ∀ k x, k < j → lens.get? k = some x → x < m := by
  match lens, hne with
  | len :: rest, _ =>
    obtain ⟨p, m, hres, hml, hall, hdisj⟩ :=
      selectLargestAux_go rest 1 0 len Nat.zero_lt_one
    have hrun : selectLargest (len :: rest) = some (p, m) := by
      simp only [selectLargest, selectLargestAux]
      exact hres
    rcases hdisj with ⟨hp, hm⟩ | ⟨k, hk, hp, hlm, hfst⟩
    · subst hp hm
      refine ⟨0, m, hrun, rfl, ?_, ?_⟩
      · intro x hx
        rcases List.mem_cons.mp hx with h | h
        · exact le_of_eq h
        · exact hall x h
      · intro j x hj
        omega
    · have hrun' : selectLargest (len :: rest) = some (k + 1, m) := by
        rw [hp, Nat.add_comm] at hrun
        exact hrun
      refine ⟨k + 1, m, hrun', by simpa using hk, ?_, ?_⟩
      · intro x hx
        rcases List.mem_cons.mp hx with h | h
        · exact h ▸ le_of_lt hlm
        · exact hall x h
      · intro j x hj hx
        match j with
        | 0 =>
          simp only [List.get?] at hx
          cases hx
          exact hlm
        | j' + 1 =>
          exact hfst j' x (by omega) (by simpa using hx)

lemma selectLargest_nil : selectLargest [] = none := rfl

lemma regFind_setFile_self (r : Registry) (sid : String) (idx : Nat) :
    regFind (setFile r sid idx) sid
      = (regFind r sid).map (fun i => { i with fileIdx := some idx }) := by
  unfold setFile
  cases h : regFind r sid with
  | none => simp [h]
  | some info => simp [h, regFind_regInsert_self]

lemma regFind_setHlsDir_self (r : Registry) (sid : String) (d : String) :
    regFind (setHlsDir r sid d) sid
      = (regFind r sid).map (fun i => { i with hlsDir := d }) := by
  unfold setHlsDir
  cases h : regFind r sid with
  | none => simp [h]
  | some info => simp [h, regFind_regInsert_self]

/-- C4: on a registered stream whose torrent metadata resolved, an empty
file list sends the record to `Error` ("no files found in torrent"), and a
non-empty one makes the pipeline select exactly the first file of greatest
byte length, whose index stays recorded in the stream record through every
later step of the pipeline. -/
theorem C4_largest_selected (env : SystemEnv) (r : Registry) (sid : String)
    (info : StreamInfo) (hfind : regFind r sid = some info)
    (hinfo : env.infoAvailable = true) :
    (env.fileLengths = [] →
      (regFind (manageStreamRun env r sid).1 sid).map StreamInfo.state
          = some .error ∧
      (regFind (manageStreamRun env r sid).1 sid).map StreamInfo.errMsg
          = some (some "no files found in torrent")) ∧
    (env.fileLengths ≠ [] →
      ∃ j m, selectLargest env.fileLengths = some (j, m) ∧
        env.fileLengths.get? j = some m ∧
        (∀ x ∈ env.fileLengths, x ≤ m) ∧
        (∀ k x, k < j → env.fileLengths.get? k = some x → x < m) ∧
        (regFind (manageStreamRun env r sid).1 sid).map StreamInfo.fileIdx
          = some (some j)) := by
  constructor
  · intro hnil
    unfold manageStreamRun
    simp [hinfo, hnil, selectLargest_nil, regFind_updateStreamState_self, hfind]
  · intro hne
    obtain ⟨j, m, hsel, hget, hmax, hfst⟩ := selectLargest_spec _ hne
    refine ⟨j, m, hsel, hget, hmax, hfst, ?_⟩
    unfold manageStreamRun
    by_cases hmk : env.mkdirOk
    · cases htc : transcodeToHLS env.tenv <;>
        simp [hinfo, hsel, hmk, htc, regFind_updateStreamState_self,
          regFind_setHlsDir_self, regFind_setFile_self, hfind]
    · simp [hinfo, hsel, hmk, regFind_updateStreamState_self,
        regFind_setFile_self, hfind]

/-- The spec's end-to-end scenario for C4: two payloads of lengths 100 and
5000; the pipeline selects the length-5000 one (index 1) and records it. -/
def c4Info : StreamInfo := initialInfo 7 "magnet:?xt=d"

def c4Registry : Registry := [(makeStreamID 7, c4Info)]

def c4Env : SystemEnv :=
  { addMagnetErr := none, infoAvailable := true, fileLengths := [100, 5000],
    mkdirOk := true, hlsDir := "/tmp/hls-7",
    tenv := { pipeOk := true, startOk := true, waitErr := none,
              ctxCancelled := false, stderrLines := [] } }

/-- Witness for C4 on the spec's 100-vs-5000 scenario. -/
theorem C4_largest_selected_witness :
    selectLargest [100, 5000] = some (1, 5000) ∧
    (regFind (manageStreamRun c4Env c4Registry (makeStreamID 7)).1
        (makeStreamID 7)).map StreamInfo.fileIdx = some (some 1) := by
  obtain ⟨-, h⟩ :=
    C4_largest_selected c4Env c4Registry (makeStreamID 7) c4Info
      (regFind_regInsert_self [] _ _) rfl
  obtain ⟨j, m, hsel, -, -, -, hrec⟩ := h (by decide)
  have heval : selectLargest [100, 5000] = some (1, 5000) := by decide
  have hjm : (1, (5000 : Int)) = (j, m) := by
    have := heval.symm.trans hsel
    exact Option.some.inj this
  obtain ⟨hj, hm⟩ := Prod.mk.injEq _ _ _ _ ▸ hjm
  exact ⟨heval, hj ▸ hrec⟩

/-! ## C3: the state machine is a forward path -/

lemma c3_take_props (k : Nat) (hk : k ≤ 5) :
    List.Chain' (fun a b : StreamState => a.rank < b.rank) (fullPath.take k) ∧
    StreamState.ready ∉ (fullPath.take k).dropLast ∧
    StreamState.error ∉ (fullPath.take k).dropLast := by
  interval_cases k <;>
    exact ⟨by simp [fullPath, List.chain'_cons, StreamState.rank],
      by decide, by decide⟩

lemma c3_err_props (k : Nat) (hk : k ≤ 4) :
    List.Chain' (fun a b : StreamState => a.rank < b.rank)
      (fullPath.take k ++ [StreamState.error]) ∧
    StreamState.ready ∉ (fullPath.take k ++ [StreamState.error]).dropLast ∧
    StreamState.error ∉ (fullPath.take k ++ [StreamState.error]).dropLast := by
  interval_cases k <;>
    exact ⟨by simp [fullPath, List.chain'_cons, StreamState.rank],
      by decide, by decide⟩

/-- The trace of one stream's lifetime is a prefix of the forward path,
optionally capped by `Error` (never after `Ready`). -/
lemma stateTrace_shape (env : SystemEnv) :
    ∃ k, (k ≤ 5 ∧ stateTrace env = fullPath.take k) ∨
      (k ≤ 4 ∧ stateTrace env = fullPath.take k ++ [StreamState.error]) := by
  obtain ⟨ame, ia, fl, mk, dir, te⟩ := env
  cases ame with
  | some e => exact ⟨1, Or.inr ⟨by omega, rfl⟩⟩
  | none =>
    cases ia with
    | false => exact ⟨2, Or.inr ⟨by omega, rfl⟩⟩
    | true =>
      cases hsel : selectLargest fl with
      | none =>
        refine ⟨2, Or.inr ⟨by omega, ?_⟩⟩
        simp [stateTrace, systemUpdates, manageUpdates, hsel, fullPath]
      | some jm =>
        cases mk with
        | false =>
          refine ⟨3, Or.inr ⟨by omega, ?_⟩⟩
          simp [stateTrace, systemUpdates, manageUpdates, hsel, fullPath]
        | true =>
          cases htc : transcodeToHLS te with
          | ok =>
            refine ⟨5, Or.inl ⟨by omega, ?_⟩⟩
            simp [stateTrace, systemUpdates, manageUpdates, hsel, htc, fullPath]
          | pipeError m =>
            refine ⟨4, Or.inr ⟨by omega, ?_⟩⟩
            simp [stateTrace, systemUpdates, manageUpdates, hsel, htc, fullPath]
          | startError m =>
            refine ⟨4, Or.inr ⟨by omega, ?_⟩⟩
            simp [stateTrace, systemUpdates, manageUpdates, hsel, htc, fullPath]
          | cancelError m =>
            refine ⟨4, Or.inr ⟨by omega, ?_⟩⟩
            simp [stateTrace, systemUpdates, manageUpdates, hsel, htc, fullPath]
          | waitError m =>
            refine ⟨4, Or.inr ⟨by omega, ?_⟩⟩
            simp [stateTrace, systemUpdates, manageUpdates, hsel, htc, fullPath]

/-- C3: for every environment, the sequence of states a single stream's
record takes is a prefix of
`Initializing, GettingInfo, Downloading, Transcoding, Ready`, or such a
prefix (of length at most 4) capped by `Error`; consecutive observed states
strictly advance along the path (no transition moves backward), and `Ready`
and `Error` occur only in the final position (they are terminal). -/
theorem C3_state_machine (env : SystemEnv) :
    (∃ k, (k ≤ 5 ∧ stateTrace env = fullPath.take k) ∨
      (k ≤ 4 ∧ stateTrace env = fullPath.take k ++ [StreamState.error])) ∧
    List.Chain' (fun a b : StreamState => a.rank < b.rank) (stateTrace env) ∧
    StreamState.ready ∉ (stateTrace env).dropLast ∧
    StreamState.error ∉ (stateTrace env).dropLast := by
  obtain ⟨k, hk⟩ := stateTrace_shape env
  rcases hk with ⟨hk5, htr⟩ | ⟨hk4, htr⟩
  · obtain ⟨h1, h2, h3⟩ := c3_take_props k hk5
    exact ⟨⟨k, Or.inl ⟨hk5, htr⟩⟩, htr ▸ h1, htr ▸ h2, htr ▸ h3⟩
  · obtain ⟨h1, h2, h3⟩ := c3_err_props k hk4
    exact ⟨⟨k, Or.inr ⟨hk4, htr⟩⟩, htr ▸ h1, htr ▸ h2, htr ▸ h3⟩

/-! ## C6: the recorded failure detail is retained -/

/-- Every lifetime trace ends with exactly one final update, and no update
before the final one carries the `Error` state: the pipeline returns
immediately after every `Error` transition. -/
lemma systemUpdates_shape (env : SystemEnv) :
    ∃ pre last, systemUpdates env = pre ++ [last] ∧
      ∀ u ∈ pre, u.1 ≠ StreamState.error := by
  obtain ⟨ame, ia, fl, mk, dir, te⟩ := env
  cases ame with
  | some e =>
    exact ⟨[], (.error, some ("error adding magnet: " ++ e)), rfl, by simp⟩
  | none =>
    cases ia with
    | false =>
      exact ⟨[(.gettingInfo, none)], (.error, some "torrent info not available"),
        rfl, by decide⟩
    | true =>
      cases hsel : selectLargest fl with
      | none =>
        refine ⟨[(.gettingInfo, none)],
          (.error, some "no files found in torrent"), ?_, by decide⟩
        simp [systemUpdates, manageUpdates, hsel]
      | some jm =>
        cases mk with
        | false =>
          refine ⟨[(.gettingInfo, none), (.downloading, none)],
            (.error, some "failed to create HLS temp dir"), ?_, by decide⟩
          simp [systemUpdates, manageUpdates, hsel]
        | true =>
          cases htc : transcodeToHLS te with
          | ok =>
            refine ⟨[(.gettingInfo, none), (.downloading, none),
              (.transcoding, none)], (.ready, none), ?_, by decide⟩
            simp [systemUpdates, manageUpdates, hsel, htc]
          | pipeError m =>
            refine ⟨[(.gettingInfo, none), (.downloading, none),
              (.transcoding, none)],
              (.error, some ("transcoding failed: " ++ m)), ?_, by decide⟩
            simp [systemUpdates, manageUpdates, hsel, htc, TranscodeResult.msg]
          | startError m =>
            refine ⟨[(.gettingInfo, none), (.downloading, none),
              (.transcoding, none)],
              (.error, some ("transcoding failed: " ++ m)), ?_, by decide⟩
            simp [systemUpdates, manageUpdates, hsel, htc, TranscodeResult.msg]
          | cancelError m =>
            refine ⟨[(.gettingInfo, none), (.downloading, none),
              (.transcoding, none)],
              (.error, some ("transcoding failed: " ++ m)), ?_, by decide⟩
            simp [systemUpdates, manageUpdates, hsel, htc, TranscodeResult.msg]
          | waitError m =>
            refine ⟨[(.gettingInfo, none), (.downloading, none),
              (.transcoding, none)],
              (.error, some ("transcoding failed: " ++ m)), ?_, by decide⟩
            simp [systemUpdates, manageUpdates, hsel, htc, TranscodeResult.msg]

/-- A record present in the registry stays present under any run of
recorded transitions. -/
lemma runUpdates_presence (r : Registry) (sid : String)
    (l : List (StreamState × Option String)) (info : StreamInfo)
    (h : regFind r sid = some info) :
    ∃ info', regFind (runUpdates r sid l) sid = some info' := by
  induction l generalizing r info with
  | nil => exact ⟨info, h⟩
  | cons u rest ih =>
    have hstep : regFind (updateStreamState r sid u.1 u.2) sid
        = some { info with state := u.1, errMsg := u.2 } := by
      rw [regFind_updateStreamState_self, h]
      rfl
    exact ih _ _ hstep

/-- C6: if a stream's lifetime makes an `Error` transition recording the
failure detail `e`, then after the whole run of registry operations the
record still holds `e` — nothing later clears or overwrites it, because
every `Error` transition is the final registry update of the lifetime. -/
theorem C6_error_retained (env : SystemEnv) (r : Registry) (sid : String)
    (info : StreamInfo) (e : String) (hfind : regFind r sid = some info)
    (hmem : (StreamState.error, some e) ∈ systemUpdates env) :
    (regFind (runUpdates r sid (systemUpdates env)) sid).map StreamInfo.errMsg
      = some (some e) := by
  obtain ⟨pre, last, hshape, hpre⟩ := systemUpdates_shape env
  rw [hshape] at hmem ⊢
  have hlast : last = (StreamState.error, some e) := by
    rcases List.mem_append.mp hmem with h | h
    · exact absurd rfl (hpre _ h)
    · exact (List.mem_singleton.mp h).symm
  subst hlast
  unfold runUpdates
  rw [List.foldl_append]
  simp only [List.foldl_cons, List.foldl_nil]
  obtain ⟨info', hinfo'⟩ := runUpdates_presence r sid pre info hfind
  unfold runUpdates at hinfo'
  rw [regFind_updateStreamState_self, hinfo']
  rfl

/-- The environment and registry of C6's witness: `AddMagnet` fails. -/
def c6Env : SystemEnv :=
  { addMagnetErr := some "boom", infoAvailable := false, fileLengths := [],
    mkdirOk := false, hlsDir := "",
    tenv := { pipeOk := false, startOk := false, waitErr := none,
              ctxCancelled := false, stderrLines := [] } }

def c6Registry : Registry := [(makeStreamID 9, initialInfo 9 "magnet:?xt=e")]

/-- Witness for C6: the magnet failure detail survives the run. -/
theorem C6_error_retained_witness :
    (regFind (runUpdates c6Registry (makeStreamID 9) (systemUpdates c6Env))
        (makeStreamID 9)).map StreamInfo.errMsg
      = some (some "error adding magnet: boom") :=
  C6_error_retained c6Env c6Registry (makeStreamID 9)
    (initialInfo 9 "magnet:?xt=e") "error adding magnet: boom"
    (by decide) (by decide)

/-! ## C8: exit status is the sole failure signal -/

/-- C8: `transcodeToHLS`'s outcome is a function of the pipe, start and
wait results alone — the diagnostic lines are never consulted, even lines
the keyword scan flags; the result is an error exactly when creating the
stderr pipe, starting the process, or waiting on it fails; and the
post-transcoding stream transition (`Ready` vs `Error`) likewise depends
only on that result. -/
theorem C8_exit_status_only (env : TranscodeEnv) :
    (∀ lines, transcodeToHLS { env with stderrLines := lines }
        = transcodeToHLS env) ∧
    (∀ line, detectsFailureKeyword line = true →
      transcodeToHLS { env with stderrLines := line :: env.stderrLines }
        = transcodeToHLS env) ∧
    ((transcodeToHLS env).isErr = true ↔
      (env.pipeOk = false ∨ env.startOk = false ∨ env.waitErr.isSome = true)) ∧
    (∀ senv : SystemEnv, senv.tenv = env → senv.infoAvailable = true →
      senv.fileLengths ≠ [] → senv.mkdirOk = true →
      (((StreamState.ready, (none : Option String)) ∈ manageUpdates senv) ↔
        transcodeToHLS env = .ok)) := by
  refine ⟨fun lines => rfl, fun line _ => rfl, ?_, ?_⟩
  · obtain ⟨po, so, we, cc, sl⟩ := env
    cases po <;> cases so <;> cases we <;> cases cc <;>
      simp [transcodeToHLS, TranscodeResult.isErr]
  · intro senv htenv hinfo hne hmk
    obtain ⟨j, m, hsel, -, -, -⟩ := selectLargest_spec _ hne
    cases htc : transcodeToHLS env <;>
      simp [manageUpdates, hinfo, hmk, hsel, htenv, htc]

/-- Witness for C8: a clean run whose diagnostics contain a line the
keyword scan flags. -/
def c8Env : TranscodeEnv :=
  { pipeOk := true, startOk := true, waitErr := none, ctxCancelled := false,
    stderrLines := [] }

theorem C8_exit_status_only_witness :
    detectsFailureKeyword "Error while decoding stream: ignored" = true ∧
    transcodeToHLS { c8Env with
        stderrLines := ["Error while decoding stream: ignored"] }
      = transcodeToHLS c8Env ∧
    ((transcodeToHLS c8Env).isErr = true ↔
      (c8Env.pipeOk = false ∨ c8Env.startOk = false ∨
        c8Env.waitErr.isSome = true)) :=
  ⟨by decide,
    (C8_exit_status_only c8Env).2.1 "Error while decoding stream: ignored"
      (by decide),
    (C8_exit_status_only c8Env).2.2.1⟩

/-! ## C5: cancellation handling -/

/-- The failing input for C5: the stream's context is cancelled while
ffmpeg runs, and ffmpeg — which nothing terminates, since the source builds
the command with `exec.Command` rather than `exec.CommandContext` and the
only `Kill` is commented out — eventually exits with status 0. -/
def c5Env : SystemEnv :=
  { addMagnetErr := none, infoAvailable := true, fileLengths := [100],
    mkdirOk := true, hlsDir := "/tmp/hls-5",
    tenv := { pipeOk := true, startOk := true, waitErr := none,
              ctxCancelled := true, stderrLines := [] } }

def c5Registry : Registry := [(makeStreamID 5, initialInfo 5 "magnet:?xt=f")]

/-- C5 evaluated at the failing input: with the context cancelled during
transcoding, the pipeline still reports a successful transcode, drives the
record to `Ready` (not `Error`), and never invokes the working-directory
removal — while for a cancelled run whose wait does fail, the error is
merely relabelled, the process having exited on its own.  This contradicts
the claim that cancellation terminates the transcoder, forces `Error`, and
removes the directory. -/
theorem C5_cancellation_divergence :
    c5Env.tenv.ctxCancelled = true ∧
    transcodeToHLS c5Env.tenv = .ok ∧
    stateTrace c5Env = [StreamState.initializing, StreamState.gettingInfo,
      StreamState.downloading, StreamState.transcoding, StreamState.ready] ∧
    (manageStreamRun c5Env c5Registry (makeStreamID 5)).2 = false ∧
    (regFind (manageStreamRun c5Env c5Registry (makeStreamID 5)).1
        (makeStreamID 5)).map StreamInfo.state = some StreamState.ready := by
  refine ⟨rfl, rfl, by decide, by decide, by decide⟩
